import Mathlib

/-!
Verification of the payment-destination resolver of the utwallet repository
(`src/input_eval.rs`, plus the invoice-amount matching logic of
`src/wallet.rs`).

The Rust source is shallowly embedded:
* pure string / arithmetic code is translated directly;
* the external crates (rust-bitcoin address parsing, BOLT11 invoice
  parsing, miniscript descriptors, the blocking LNURL HTTP client) are
  modelled by an oracle record `Lib` of total functions, so theorems
  quantify over every possible behaviour of those libraries, and concrete
  witnesses instantiate the record with values taken from the repository's
  own test-suite;
* the IEEE-754 binary64 / binary32 arithmetic used by `parse_satoshis` and
  `gui_csv` is modelled exactly over `ℚ` (correct rounding to nearest,
  ties to even, with overflow to infinity and Rust's saturating casts).
-/

/-! ## Basic list/char utilities (Rust `str` operations) -/

/-- Is `p` a prefix of `s` (exact characters)? -/
def isPref (p s : List Char) : Bool :=
  match p, s with
  | [], _ => true
  | _ :: _, [] => false
  | a :: p1, b :: s1 => a = b && isPref p1 s1

/-- Strip the exact prefix `p` from `s`. -/
def stripPref (p s : List Char) : Option (List Char) :=
  match p, s with
  | [], s => some s
  | _ :: _, [] => none
  | a :: p1, b :: s1 => if a = b then stripPref p1 s1 else none

/-- ASCII lower-casing of a single character. -/
def lowerCh (c : Char) : Char :=
  if 'A' ≤ c ∧ c ≤ 'Z' then Char.ofNat (c.toNat + 32) else c

/-- Strip a prefix, comparing ASCII case-insensitively. -/
def stripPrefCI (p s : List Char) : Option (List Char) :=
  match p, s with
  | [], s => some s
  | _ :: _, [] => none
  | a :: p1, b :: s1 => if lowerCh a = lowerCh b then stripPrefCI p1 s1 else none

/-- Rust `str::contains` for a literal pattern. -/
def containsSub (p : List Char) : List Char → Bool
  | [] => isPref p []
  | c :: rest => isPref p (c :: rest) || containsSub p rest

/-- Rust `str::replace`: replace all non-overlapping occurrences of `pat`
by `rep`, scanning left to right.  `fuel` bounds recursion; it is always
called with `fuel = length of the string`, which suffices because every
step consumes at least one character. -/
def replaceAllF (fuel : ℕ) (pat rep : List Char) (cs : List Char) : List Char :=
  match fuel, cs with
  | 0, cs => cs
  | _ + 1, [] => []
  | f + 1, c :: rest =>
      if isPref pat (c :: rest) then
        rep ++ replaceAllF f pat rep (List.drop (pat.length - 1) rest)
      else
        c :: replaceAllF f pat rep rest

/-- Rust `str::replace` wrapper on `String`. -/
def replaceS (s pat rep : String) : String :=
  String.mk (replaceAllF s.data.length pat.data rep.data s.data)

/-- Rust `str::starts_with` for a literal pattern. -/
def startsWithS (p s : String) : Bool := isPref p.data s.data

/-- Rust `str::contains` wrapper on `String`. -/
def containsS (p s : String) : Bool := containsSub p.data s.data

/-! ## Exact model of IEEE-754 arithmetic over `ℚ`

`parse_satoshis` goes through `f64` and `gui_csv` through `f32`; both are
deterministic (correctly rounded) and are reproduced here exactly with
rational arithmetic. -/

/-- Floor of the base-2 logarithm of `n`, accumulator style, by
structural recursion on `fuel` (any `fuel ≥ bit-length of n` gives the
exact value). -/
def lg2F (fuel n acc : ℕ) : ℕ :=
  match fuel with
  | 0 => acc
  | f + 1 => if n ≤ 1 then acc else lg2F f (n / 2) (acc + 1)

/-- Floor of the base-2 logarithm (total, for positive `n`).  Passing
`n` itself as fuel makes the computation exact for every `n`: the
recursion halves its argument at each step, so it needs only
bit-length-of-`n` steps, and `n` is always at least that. -/
def lg2 (n : ℕ) : ℕ := lg2F n n 0

/-- The rational `n · 2 ^ t`, built directly via `mkRat` (all model
arithmetic is carried out on `ℕ`/`ℤ` and packaged into `ℚ` only at the
end, so that every value reduces by computation). -/
def q2 (n : ℕ) (t : ℤ) : ℚ :=
  if 0 ≤ t then mkRat (n * 2 ^ t.toNat) 1 else mkRat n (2 ^ (-t).toNat)

/-- The rational `n · 10 ^ t`. -/
def q10 (n : ℕ) (t : ℤ) : ℚ :=
  if 0 ≤ t then mkRat (n * 10 ^ t.toNat) 1 else mkRat n (10 ^ (-t).toNat)

/-- Negation of a rational via `mkRat`. -/
def negQ (v : ℚ) : ℚ := mkRat (-v.num) v.den

/-- Does `2 ^ c ≤ a / b` hold?  (`a b : ℕ`, `b ≠ 0`.) -/
def pow2LeN (c : ℤ) (a b : ℕ) : Bool :=
  if 0 ≤ c then b * 2 ^ c.toNat ≤ a else b ≤ a * 2 ^ (-c).toNat

/-- The binade exponent `e` with `2 ^ e ≤ a / b < 2 ^ (e+1)`, for positive
`a / b`. -/
def floorLog2N (a b : ℕ) : ℤ :=
  let c : ℤ := (lg2 a : ℤ) - (lg2 b : ℤ)
  if pow2LeN c a b then c else c - 1

/-- Round the positive rational `a / b` to the nearest integer, ties to
even. -/
def roundHalfEvenN (a b : ℕ) : ℕ :=
  let n := a / b
  let r := a % b
  if 2 * r < b then n
  else if b < 2 * r then n + 1
  else if n % 2 = 0 then n else n + 1

/-- Round the positive rational `a / b` to the nearest multiple of
`2 ^ t`, ties to even, returning the integer multiplier. -/
def roundAtQuantum (a b : ℕ) (t : ℤ) : ℕ :=
  if 0 ≤ t then roundHalfEvenN a (b * 2 ^ t.toNat)
  else roundHalfEvenN (a * 2 ^ (-t).toNat) b

/-- Correctly round the positive rational `a / b` to a binary floating
point number with `mshift + 1` mantissa bits and minimal quantum
`2 ^ tmin` (covering subnormals), with unbounded upper exponent.  The
caller compares the result against the largest finite value to detect
overflow to infinity. -/
def rndPosQ (mshift : ℕ) (tmin : ℤ) (a b : ℕ) : ℚ :=
  let e := floorLog2N a b
  let t := max (e - (mshift : ℤ)) tmin
  q2 (roundAtQuantum a b t) t

/-- Largest finite binary64 value, `(2 ^ 53 - 1) * 2 ^ 971`, as an
explicit numeral (kept below the elaborator's exponentiation
threshold). -/
def maxF64 : ℚ :=
  mkRat
    179769313486231570814527423731704356798070567525844996598917476803157260780028538760589558632766878171540458953514382464234321326889464182768467546703537516986049910576551282076245490090389328944075868508455133942304583236903222948165808559332123348274797826204144723168738177180919299881250404026184124858368
    1

/-- A binary64 value: NaN, signed infinity, or an exactly representable
finite value carried as a rational. -/
inductive FP where
  | nan : FP
  | inf (neg : Bool) : FP
  | finite (q : ℚ) : FP
deriving DecidableEq, Repr

/-- Correct rounding of the signed rational `± a / b` to binary64 (round
to nearest, ties to even, overflow to infinity). -/
def rnd64P (neg : Bool) (a b : ℕ) : FP :=
  if a = 0 then .finite 0
  else
    let v := rndPosQ 52 (-1074) a b
    if maxF64 < v then .inf neg
    else .finite (if neg then negQ v else v)

/-- Correct rounding of the positive rational `a / b` to binary32. -/
def rnd32P (a b : ℕ) : ℚ :=
  if a = 0 then 0 else rndPosQ 23 (-149) a b

/-! ## `f64::from_str` (grammar from the Rust standard library docs) -/

def isDigitCh (c : Char) : Bool := '0' ≤ c && c ≤ '9'

/-- Numeric value of a digit string (most significant first). -/
def digitsToNat (cs : List Char) : ℕ :=
  cs.foldl (fun a c => a * 10 + (c.toNat - 48)) 0

/-- Parse the optional exponent part `(e|E) Sign? Count` at the end of a
float literal; returns the signed exponent, `none` on a malformed tail.
`mant / 10^flen` is the mantissa value accumulated so far. -/
def parseExpTail (cs : List Char) : Option ℤ :=
  match cs with
  | [] => some 0
  | e :: rest =>
      if e = 'e' ∨ e = 'E' then
        let (neg, rest1) :=
          match rest with
          | '-' :: r => (true, r)
          | '+' :: r => (false, r)
          | r => (false, r)
        let ds := rest1.takeWhile isDigitCh
        let rest2 := rest1.drop ds.length
        if ds = [] ∨ rest2 ≠ [] then none
        else some (if neg then -(digitsToNat ds : ℤ) else (digitsToNat ds : ℤ))
      else none

/-- The exact value `mant · 10 ^ (exp - flen)` as a positive
numerator/denominator pair. -/
def decToPair (mant : ℕ) (flen : ℕ) (exp : ℤ) : ℕ × ℕ :=
  if 0 ≤ exp - (flen : ℤ) then (mant * 10 ^ (exp - (flen : ℤ)).toNat, 1)
  else (mant, 10 ^ ((flen : ℤ) - exp).toNat)

/-- Parse the `Number` production of Rust's float grammar
(`Count '.'? Count? Exp? | '.' Count Exp?`), anchored to the whole
input; returns the exact absolute value as a numerator/denominator
pair. -/
def parseNumber (cs : List Char) : Option (ℕ × ℕ) :=
  match cs with
  | '.' :: rest =>
      let f := rest.takeWhile isDigitCh
      let rest2 := rest.drop f.length
      if f = [] then none
      else (parseExpTail rest2).map fun e => decToPair (digitsToNat f) f.length e
  | _ =>
      let i := cs.takeWhile isDigitCh
      let rest1 := cs.drop i.length
      if i = [] then none
      else
        match rest1 with
        | '.' :: rest2 =>
            let f := rest2.takeWhile isDigitCh
            let rest3 := rest2.drop f.length
            (parseExpTail rest3).map fun e =>
              decToPair (digitsToNat i * 10 ^ f.length + digitsToNat f) f.length e
        | _ => (parseExpTail rest1).map fun e => decToPair (digitsToNat i) 0 e

/-- Rust `f64::from_str`: optional sign, then `inf`/`infinity`/`nan`
(ASCII case-insensitive) or a decimal number, correctly rounded to
binary64. -/
def parseF64 (s : String) : Option FP :=
  match s.data with
  | [] => none
  | c0 :: rest0 =>
      let (neg, cs) :=
        match c0, rest0 with
        | '-', r => (true, r)
        | '+', r => (false, r)
        | c, r => (false, c :: r)
      let low := cs.map lowerCh
      if low = "inf".data ∨ low = "infinity".data then some (.inf neg)
      else if low = "nan".data then some .nan
      else (parseNumber cs).map fun p => rnd64P neg p.1 p.2

/-- Multiplication of a binary64 value by the exactly representable
constant `100_000_000.0`, with correct rounding (this is the only f64
multiplication the source performs). -/
def mulE8F64 : FP → FP
  | .nan => .nan
  | .inf n => .inf n
  | .finite q => rnd64P (decide (q.num < 0)) (q.num.natAbs * 100000000) q.den

/-- Rust's saturating `as u64` cast of a binary64 value: NaN ↦ 0,
truncation toward zero, clamped to `[0, 2^64 - 1]`. -/
def f64AsU64 : FP → ℕ
  | .nan => 0
  | .inf true => 0
  | .inf false => 2 ^ 64 - 1
  | .finite q => if q.num ≤ 0 then 0 else min (2 ^ 64 - 1) (q.num.toNat / q.den)

/-- Hex digit character for `n < 16`. -/
def hexDigit (n : ℕ) : Char :=
  if n < 10 then Char.ofNat (48 + n) else Char.ofNat (87 + n)

/-- Hex rendering of a small natural (used only for control characters in
debug-escaped strings). -/
def hexOfNatF (fuel n : ℕ) : List Char :=
  match fuel with
  | 0 => []
  | f + 1 => if n < 16 then [hexDigit n] else hexOfNatF f (n / 16) ++ [hexDigit (n % 16)]

/-- Rust `char::escape_debug` of a single character (the cases relevant
to strings: quote, backslash, `\n`, `\r`, `\t`, other C0 controls as
`\u`-escapes; printable characters pass through). -/
def escDebugCh (c : Char) : List Char :=
  if c = '"' then ['\\', '"']
  else if c = '\\' then ['\\', '\\']
  else if c = '\n' then ['\\', 'n']
  else if c = '\r' then ['\\', 'r']
  else if c = '\t' then ['\\', 't']
  else if c.toNat < 32 then ['\\', 'u', '\x7b'] ++ hexOfNatF 8 c.toNat ++ ['\x7d']
  else [c]

/-- Rust `{:?}` (Debug) formatting of a `&str`. -/
def rustDebugStr (s : String) : String :=
  String.mk ('"' :: s.data.foldr (fun c acc => escDebugCh c ++ acc) ['"'])

/-- `src/input_eval.rs::parse_satoshis`: convert a string with a value in
Bitcoin to satoshis.  Empty string ↦ 0; otherwise `f64::from_str`,
multiply by `100_000_000.0` and cast `as u64`; the parse error is Rust's
`"invalid float literal"` wrapped in the source's format string. -/
def parse_satoshis (amount : String) : Except String ℕ :=
  if amount = "" then .ok 0
  else
    match parseF64 amount with
    | none =>
        .error ("Failed to parse the satoshis from " ++ rustDebugStr amount
          ++ " : invalid float literal")
    | some f => .ok (f64AsU64 (mulE8F64 f))

/-! ## Binary32 arithmetic and Rust `Display` formatting (for `gui_csv`) -/

/-- Rust's `as f32` cast of a `u64` (round to nearest, ties to even; a
`u64` can never overflow binary32's exponent range). -/
def u64ToF32 (n : ℕ) : ℚ := rnd32P n 1

/-- Binary32 division by the exactly representable constant
`100_000_000.0` (the only f32 division the source performs), correctly
rounded. -/
def divE8F32 (x : ℚ) : ℚ := rnd32P x.num.toNat (x.den * 100000000)

/-- Largest `e : ℕ` with `10 ^ e ≤ a / b`, for `a / b ≥ 1` (fuelled
search). -/
def flog10Up (fuel : ℕ) (a b : ℕ) (e : ℕ) : ℕ :=
  match fuel with
  | 0 => e
  | f + 1 => if b * 10 ^ (e + 1) ≤ a then flog10Up f a b (e + 1) else e

/-- Smallest `p : ℕ` with `1 ≤ (a / b) · 10 ^ p`, for `0 < a / b < 1`
(fuelled search). -/
def flog10Down (fuel : ℕ) (a b : ℕ) (p : ℕ) : ℕ :=
  match fuel with
  | 0 => p
  | f + 1 => if b ≤ a * 10 ^ p then p else flog10Down f a b (p + 1)

/-- The decimal exponent `e` with `10 ^ e ≤ a / b < 10 ^ (e+1)`, for
positive `a / b`. -/
def flog10 (a b : ℕ) : ℤ :=
  if b ≤ a then (flog10Up 60 a b 0 : ℤ) else -(flog10Down 60 a b 0 : ℤ)

/-- Positional (never scientific) decimal rendering of `m · 10 ^ scale`,
as Rust's `Display` for floats produces. -/
def renderDec (m : ℕ) (scale : ℤ) : String :=
  let d := Nat.repr m
  if 0 ≤ scale then String.mk (d.data ++ List.replicate scale.toNat '0')
  else
    let p := (-scale).toNat
    if p < d.data.length then
      String.mk (d.data.take (d.data.length - p) ++ '.' :: d.data.drop (d.data.length - p))
    else
      String.mk ('0' :: '.' :: List.replicate (p - d.data.length) '0' ++ d.data)

/-- Search for the smallest number of significant digits whose nearest
decimal of that length round-trips through binary32 back to `v`; returns
the rendered digits (Rust `Display` uses the shortest round-tripping
decimal).  `k` counts digits, `fuel` bounds the search (9 significant
digits always round-trip binary32, so the fuel is never exhausted). -/
def shortestDec (fuel : ℕ) (k : ℕ) (a b : ℕ) (e10 : ℤ) : String :=
  match fuel with
  | 0 => "0"
  | f + 1 =>
      let scale := e10 - (k : ℤ) + 1
      let m :=
        if 0 ≤ scale then roundHalfEvenN a (b * 10 ^ scale.toNat)
        else roundHalfEvenN (a * 10 ^ (-scale).toNat) b
      let cand :=
        if 0 ≤ scale then rnd32P (m * 10 ^ scale.toNat) 1
        else rnd32P m (10 ^ (-scale).toNat)
      if cand = mkRat a b then renderDec m scale
      else shortestDec f (k + 1) a b e10

/-- Rust `Display` (`"{}"`) formatting of a positive finite binary32
value `a / b`. -/
def fmtF32Pos (a b : ℕ) : String := shortestDec 12 1 a b (flog10 a b)

/-- Rust `Display` (`"{}"`) formatting of a finite binary32 value. -/
def fmtF32 (v : ℚ) : String :=
  if v.num = 0 then "0"
  else if v.num < 0 then "-" ++ fmtF32Pos v.num.natAbs v.den
  else fmtF32Pos v.num.toNat v.den

/-! ## The classifier's regular expressions, as direct matchers

Each regex of `InputEval::evaluate` is translated into a decidable
matcher recognising exactly the same language (the patterns are simple
enough that the leftmost-first backtracking semantics of the `regex`
crate collapses to the direct checks below). -/

/-- The character class `[a-zA-HJ-NP-Z0-9]` of the address regex. -/
def addrClass (c : Char) : Bool :=
  ('a' ≤ c && c ≤ 'z') || ('A' ≤ c && c ≤ 'H') || ('J' ≤ c && c ≤ 'N')
    || ('P' ≤ c && c ≤ 'Z') || ('0' ≤ c && c ≤ '9')

/-- Does a full character run satisfy the address shape
`(bc1|[13])[a-zA-HJ-NP-Z0-9]{25,39}`? -/
def addrShape (run : List Char) : Bool :=
  run.all addrClass &&
    match run with
    | 'b' :: 'c' :: '1' :: t => 25 ≤ t.length && t.length ≤ 39
    | c :: t => (c = '1' || c = '3') && 25 ≤ t.length && t.length ≤ 39
    | [] => false

/-- `^(bc1|[13])[a-zA-HJ-NP-Z0-9]{25,39}$` — the bare mainnet address
regex. -/
def isBtcAddr (cs : List Char) : Bool := addrShape cs

/-- One step of the `([?&](amount|label|message)=([^&]+))*` matcher.
`PMode.sep` expects a `?`/`&` separator (or the end of input),
`PMode.key` expects one of the three keys followed by `=`, and
`PMode.val seen` consumes value characters (`seen` records whether the
value is nonempty so far); at a `?` the matcher nondeterministically
either continues the value or starts the next parameter, reflecting the
regex's backtracking. -/
inductive PMode where
  | sep : PMode
  | key : PMode
  | val (seen : Bool) : PMode

/-- Fuelled evaluation of the query-parameter regex fragment (fuel is
always taken larger than the input length, and every step consumes
fuel). -/
def paramsStep (fuel : ℕ) (mode : PMode) (cs : List Char) : Bool :=
  match fuel with
  | 0 => false
  | f + 1 =>
      match mode, cs with
      | .sep, [] => true
      | .sep, c :: rest => (c = '?' || c = '&') && paramsStep f .key rest
      | .key, cs =>
          (match stripPref "amount=".data cs with
           | some rest => paramsStep f (.val false) rest
           | none =>
             match stripPref "label=".data cs with
             | some rest => paramsStep f (.val false) rest
             | none =>
               match stripPref "message=".data cs with
               | some rest => paramsStep f (.val false) rest
               | none => false)
      | .val seen, [] => seen
      | .val seen, c :: rest =>
          if c = '&' then seen && paramsStep f .key rest
          else if c = '?' then
            (seen && paramsStep f .key rest) || paramsStep f (.val true) rest
          else paramsStep f (.val true) rest

/-- `^bitcoin:((bc1|[13])[a-zA-HJ-NP-Z0-9]{25,39})([?&](amount|label|message)=([^&]+))*$`:
returns the capture of group 1 (the address) when the whole string
matches, `none` otherwise.  Because the query part must start with `?`/`&`
(not in the address class), the address capture is exactly the maximal
run of address-class characters after the scheme. -/
def bitcoinUriAddr (cs : List Char) : Option String :=
  match stripPref "bitcoin:".data cs with
  | none => none
  | some rest =>
      let run := rest.takeWhile addrClass
      let rem := rest.drop run.length
      if addrShape run && paramsStep (3 * rem.length + 9) .sep rem then
        some (String.mk run)
      else none

/-- Try to read `(amount|label|message)=` at the head of `cs` (the three
literal keys have distinct first letters, so the regex alternation is
deterministic). -/
def keyAt (cs : List Char) : Option (String × List Char) :=
  match stripPref "amount=".data cs with
  | some rest => some ("amount", rest)
  | none =>
    match stripPref "label=".data cs with
    | some rest => some ("label", rest)
    | none =>
      match stripPref "message=".data cs with
      | some rest => some ("message", rest)
      | none => none

/-- `Regex::captures_iter` for `(?P<key>amount|label|message)=(?P<value>[^&]+)`:
scan the whole input left to right, taking leftmost non-overlapping
matches with a greedy (maximal, nonempty, `&`-free) value. -/
def findProps (fuel : ℕ) (cs : List Char) : List (String × String) :=
  match fuel, cs with
  | 0, _ => []
  | _ + 1, [] => []
  | f + 1, c :: rest =>
      match keyAt (c :: rest) with
      | some (k, afterEq) =>
          let v := afterEq.takeWhile (fun x => x ≠ '&')
          if v = [] then findProps f rest
          else (k, String.mk v) :: findProps f (afterEq.drop v.length)
      | none => findProps f rest

/-- `HashMap::get` after repeated `insert` in iteration order: the last
binding of a key wins. -/
def lookupProp (props : List (String × String)) (k : String) : Option String :=
  match props with
  | [] => none
  | (k1, v1) :: rest =>
      match lookupProp rest k with
      | some v => some v
      | none => if k1 = k then some v1 else none

/-- The character class `[a-z0-9]` under the regex's `(?i)` flag:
ASCII letters of either case, and digits. -/
def ciAlnum (c : Char) : Bool :=
  ('a' ≤ c && c ≤ 'z') || ('A' ≤ c && c ≤ 'Z') || ('0' ≤ c && c ≤ '9')

/-- `^(?i)(LIGHTNING:)?lnbc[a-z0-9]{100,700}$` — the BOLT11 regex
(entirely case-insensitive). -/
def isBolt11 (cs : List Char) : Bool :=
  let cs1 := match stripPrefCI "lightning:".data cs with
             | some r => r
             | none => cs
  match stripPrefCI "lnbc".data cs1 with
  | some body => 100 ≤ body.length && body.length ≤ 700 && body.all ciAlnum
  | none => false

/-- The character class `[a-z0-9]` (case-sensitive). -/
def lowAlnum (c : Char) : Bool :=
  ('a' ≤ c && c ≤ 'z') || ('0' ≤ c && c ≤ '9')

/-- `^lno1[a-z0-9]{55,150}$` — the BOLT12 regex. -/
def isBolt12 (cs : List Char) : Bool :=
  match stripPref "lno1".data cs with
  | some body => 55 ≤ body.length && body.length ≤ 150 && body.all lowAlnum
  | none => false

/-- The local-part class `[A-Za-z0-9._%+-]` of the lightning-address
regex. -/
def lnLocalClass (c : Char) : Bool :=
  ('A' ≤ c && c ≤ 'Z') || ('a' ≤ c && c ≤ 'z') || ('0' ≤ c && c ≤ '9')
    || c = '.' || c = '_' || c = '%' || c = '+' || c = '-'

/-- The domain class `[A-Za-z0-9.-]`. -/
def lnDomClass (c : Char) : Bool :=
  ('A' ≤ c && c ≤ 'Z') || ('a' ≤ c && c ≤ 'z') || ('0' ≤ c && c ≤ '9')
    || c = '.' || c = '-'

def isAlphaCh (c : Char) : Bool :=
  ('A' ≤ c && c ≤ 'Z') || ('a' ≤ c && c ≤ 'z')

/-- `[A-Za-z]{2,6}` anchored to the end — the TLD of the
lightning-address regex. -/
def tldOk (cs : List Char) : Bool :=
  2 ≤ cs.length && cs.length ≤ 6 && cs.all isAlphaCh

/-- Scan the rest of a domain for some `.` splitting it into
`[A-Za-z0-9.-]+ "." [A-Za-z]{2,6}` (the character before the scan point
has already been checked). -/
def dotSearch : List Char → Bool
  | [] => false
  | '.' :: rest => tldOk rest || dotSearch rest
  | c :: rest => lnDomClass c && dotSearch rest

/-- `[A-Za-z0-9.-]+\.[A-Za-z]{2,6}` anchored to the whole list. -/
def lnDomOk : List Char → Bool
  | [] => false
  | c :: rest => lnDomClass c && dotSearch rest

/-- Split a character list at its first `@`. -/
def splitAtAt : List Char → Option (List Char × List Char)
  | [] => none
  | '@' :: rest => some ([], rest)
  | c :: rest => (splitAtAt rest).map fun p => (c :: p.1, p.2)

/-- `^[A-Za-z0-9._%+-]+@[A-Za-z0-9.-]+\.[A-Za-z]{2,6}$` — the lightning
address regex. -/
def isLnAddr (cs : List Char) : Bool :=
  match splitAtAt cs with
  | none => false
  | some (loc, dom) => loc ≠ [] && loc.all lnLocalClass && lnDomOk dom

/-! ## Data model (`src/input_eval.rs`)

External-library values are carried as the data the source actually
consumes from them: a parsed `Bolt11Invoice` by its serialization, its
optional embedded amount, and its optional direct description; a parsed
`Descriptor` by its serialization and the outcome of `sanity_check`;
parsed `PrivateKey` / `ExtendedPrivKey` values by their canonical string
serializations (`to_wif` / `to_string`). -/

/-- A parsed `Bolt11Invoice`, as consumed by the source. -/
structure Bolt11 where
  serialize : String
  amountMsat : Option ℕ
  directDesc : Option String
deriving DecidableEq, Repr

/-- A parsed miniscript `Descriptor` together with its
`sanity_check()` outcome (`some e` = `Err(e)`). -/
structure DescT where
  serialize : String
  sanityErr : Option String
deriving DecidableEq, Repr

/-- An LNURL pay response (`min_sendable` / `max_sendable` in
millisatoshis). -/
structure PayResp where
  minSendable : ℕ
  maxSendable : ℕ
deriving DecidableEq, Repr

/-- An LNURL withdraw response. -/
structure WithdrawResp where
  maxWithdrawable : ℕ
  minWithdrawable : Option ℕ
  defaultDescription : String
deriving DecidableEq, Repr

/-- `lnurl::api::LnUrlResponse`. -/
inductive LnUrlResponse where
  | pay (p : PayResp) : LnUrlResponse
  | withdraw (w : WithdrawResp) : LnUrlResponse
  | channel : LnUrlResponse
deriving DecidableEq, Repr

/-- `input_eval.rs::PrivateKeys`. -/
inductive PrivateKeys where
  | Pk (wif : String) : PrivateKeys
  | Epk (xprv : String) : PrivateKeys
  | Desc (d : DescT) : PrivateKeys
deriving DecidableEq, Repr

/-- `PrivateKeys::to_string`. -/
def PrivateKeys.toStr : PrivateKeys → String
  | .Pk wif => wif
  | .Epk xprv => xprv
  | .Desc d => d.serialize

/-- `input_eval.rs::InputNetwork`.  A validated mainnet `Address` is
carried as its canonical serialization. -/
inductive InputNetwork where
  | Mainnet (addr : String) : InputNetwork
  | Lightning (inv : Bolt11) : InputNetwork
  | PrivKey (k : PrivateKeys) : InputNetwork
  | LnWithdraw (url : String) : InputNetwork
deriving DecidableEq, Repr

/-- `input_eval.rs::InputEval` (the `ResolvedPayment` of the spec). -/
structure InputEval where
  network : InputNetwork
  satoshis : Option ℕ
  description : String
deriving DecidableEq, Repr

/-- Oracle record for the external libraries.  Each field is the total
function the source observes:
* `addrFromStr`: `Address::from_str`, the parsed address carried as its
  canonical serialization, errors as `e.to_string()`;
* `requireNetworkBitcoin`: `Address::require_network(Network::Bitcoin)`;
* `wifParse`: `PrivateKey::from_wif` (result serialized via `to_wif`);
* `xprvParse`: `ExtendedPrivKey::from_str` (result via `to_string`);
* `electrumParse`: `ElectrumExtendedPrivKey::from_str` composed with
  `.xprv()` (result via `to_string`);
* `descParse`: `Descriptor::<String>::from_str`;
* `bolt11FromStr`: `Bolt11Invoice::from_str`, errors as `e.to_string()`;
* `lnUrlFromStr`: `LnUrl::from_str` composed with `.url` ;
* `lnaddrParse`: `LightningAddress::from_str` composed with
  `.lnurlp_url()`;
* `buildClient`: `Builder::default().build_blocking()`;
* `makeRequest`: the client's `make_request` (first HTTP round trip);
* `getInvoice`: the client's `get_invoice(&pay, msats, None,
  Some(&description))` (the LNURL-pay callback), returning the invoice's
  serialization. -/
structure Lib where
  addrFromStr : String → Except String String
  requireNetworkBitcoin : String → Except String String
  wifParse : String → Option String
  xprvParse : String → Option String
  electrumParse : String → Option String
  descParse : String → Option DescT
  bolt11FromStr : String → Except String Bolt11
  lnUrlFromStr : String → Except String String
  lnaddrParse : String → Except String String
  buildClient : Except String Unit
  makeRequest : String → Except String LnUrlResponse
  getInvoice : PayResp → ℕ → Option Unit → Option String → Except String String

/-! ## The resolver (`impl InputEval`) -/

/-- `InputEval::mainnet`. -/
def mainnet (lib : Lib) (addr : String) (satoshis : Option ℕ)
    (description : String) : Except String InputEval :=
  match lib.addrFromStr addr with
  | .error e => .error ("Failed to parse address " ++ addr ++ " : " ++ e)
  | .ok a =>
      match lib.requireNetworkBitcoin a with
      | .error e =>
          .error ("The onchain address doesn't look like it is for mainnet: " ++ e)
      | .ok a2 => .ok ⟨.Mainnet a2, satoshis, description⟩

/-- `InputEval::lightning`. -/
def lightning (lib : Lib) (invoice : String) (satoshis : Option ℕ)
    (description : String) : Except String InputEval :=
  match lib.bolt11FromStr invoice with
  | .error e => .error ("Failed to construct the invoice " ++ invoice ++ " : " ++ e)
  | .ok inv =>
      let satoshis := match inv.amountMsat with
        | some msats => some (msats / 1000)
        | none => satoshis
      let description := match inv.directDesc with
        | some desc => desc
        | none => description
      .ok ⟨.Lightning inv, satoshis, description⟩

/-- `u64` multiplication by 1000 with release-mode wrap-around. -/
def mul1000U64 (sats : ℕ) : ℕ := sats * 1000 % 2 ^ 64

/-- `InputEval::ln_url`. -/
def ln_url (lib : Lib) (url : String) (satoshis : Option ℕ)
    (description : String) : Except String InputEval :=
  match lib.buildClient with
  | .error e => .error e
  | .ok _ =>
  match lib.makeRequest url with
  | .error e => .error ("Failed to query lnurl: " ++ e)
  | .ok (.pay pay) =>
      let msatsRes : Except String ℕ :=
        match satoshis with
        | some sats =>
            if mul1000U64 sats < pay.minSendable ∨ pay.maxSendable < mul1000U64 sats then
              .error ("payment " ++ toString (mul1000U64 sats) ++ " is not between "
                ++ toString pay.minSendable ++ " and " ++ toString pay.maxSendable)
            else .ok (mul1000U64 sats)
        | none => .ok pay.minSendable
      match msatsRes with
      | .error e => .error e
      | .ok msats =>
          match lib.getInvoice pay msats none (some description) with
          | .error e => .error e
          | .ok invoice => lightning lib invoice (some (msats / 1000)) description
  | .ok (.withdraw lnurlw) =>
      let msatsRes : Except String ℕ :=
        match satoshis with
        | some sats =>
            if lnurlw.maxWithdrawable < mul1000U64 sats then
              .error ("payment " ++ toString (mul1000U64 sats) ++ " is above "
                ++ toString lnurlw.maxWithdrawable)
            else
              match lnurlw.minWithdrawable with
              | some minw =>
                  if mul1000U64 sats < minw then
                    .error ("payment " ++ toString (mul1000U64 sats) ++ " is below "
                      ++ toString minw)
                  else .ok (mul1000U64 sats)
              | none => .ok (mul1000U64 sats)
        | none => .ok lnurlw.maxWithdrawable
      match msatsRes with
      | .error e => .error e
      | .ok msats =>
          .ok ⟨.LnWithdraw url, some (msats / 1000), lnurlw.defaultDescription⟩
  | .ok .channel => .error "LNURL withdraw and channel are not implemented yet"

/-- The `satoshis` argument preprocessing at the top of
`InputEval::evaluate` (`None` for an empty string, otherwise
`parse_satoshis` with `?`-propagation). -/
def argSats (bitcoins : String) : Except String (Option ℕ) :=
  if bitcoins = "" then .ok none
  else (parse_satoshis bitcoins).map some

/-- Strip the `LIGHTNING:` and then the `lightning:` scheme, as the two
`str::replace` calls of the source do. -/
def stripLn (s : String) : String :=
  replaceS (replaceS s "LIGHTNING:" "") "lightning:" ""

/-- `InputEval::evaluate`.  The result is wrapped in `Option`: `none`
models a panic (the two `unwrap()` calls on the URI regex captures);
`some` carries the returned `Result`. -/
def evaluate (lib : Lib) (recipient bitcoins description : String) :
    Option (Except String InputEval) :=
  match argSats bitcoins with
  | .error e => some (.error e)
  | .ok satoshis =>
  if isBtcAddr recipient.data then some (mainnet lib recipient satoshis description)
  else if (bitcoinUriAddr recipient.data).isSome then
    match bitcoinUriAddr recipient.data with
    | none => none
    | some addr =>
        let props := findProps recipient.data.length recipient.data
        match (match lookupProp props "amount" with
               | some sats => Except.map some (parse_satoshis sats)
               | none => .ok satoshis : Except String (Option ℕ)) with
        | .error e => some (.error e)
        | .ok satoshis2 =>
            let descr2 := match lookupProp props "label" with
              | some desc => desc
              | none => description
            some (mainnet lib addr satoshis2 descr2)
  else match lib.wifParse recipient with
  | some pk => some (.ok ⟨.PrivKey (.Pk pk), none, "sweep private key"⟩)
  | none =>
  match lib.xprvParse recipient with
  | some xprv => some (.ok ⟨.PrivKey (.Epk xprv), none, "sweep private keys"⟩)
  | none =>
  match lib.electrumParse recipient with
  | some xprv => some (.ok ⟨.PrivKey (.Epk xprv), none, "sweep private keys"⟩)
  | none =>
  match lib.descParse recipient with
  | some desc =>
      match desc.sanityErr with
      | some e => some (.error ("Descriptor failed sanity check: " ++ e))
      | none => some (.ok ⟨.PrivKey (.Desc desc), none, "sweep private keys"⟩)
  | none =>
  if isBolt11 recipient.data then
    let stripped := stripLn recipient
    match lib.bolt11FromStr stripped with
    | .error e => some (.error e)
    | .ok invoice =>
        let satoshis := match invoice.amountMsat with
          | some msat => some (msat / 1000)
          | none => satoshis
        some (lightning lib stripped satoshis description)
  else if isBolt12 recipient.data then some (.error "BOLT12 is not supported yet")
  else if startsWithS "LNURL" recipient || startsWithS "lightning:LNURL" recipient
      || startsWithS "LIGHTNING:LNURL" recipient then
    let stripped := stripLn recipient
    match lib.lnUrlFromStr stripped with
    | .error e => some (.error e)
    | .ok url => some (ln_url lib url satoshis description)
  else if startsWithS "lnurlw://" recipient
      || containsS "api.swiss-bitcoin-pay.ch/card" recipient then
    some (ln_url lib (replaceS recipient "lnurlw://" "https://") satoshis description)
  else if startsWithS "https://" recipient then
    some (ln_url lib recipient satoshis description)
  else if isLnAddr recipient.data then
    match lib.lnaddrParse recipient with
    | .error e => some (.error e)
    | .ok url => some (ln_url lib url satoshis description)
  else some (.error "Unknown input format")

/-- The recipient column of `InputEval::gui_csv`. -/
def netStr : InputNetwork → String
  | .Mainnet addr => addr
  | .Lightning inv => inv.serialize
  | .LnWithdraw ss => ss
  | .PrivKey ss => ss.toStr

/-- The satoshi column of `InputEval::gui_csv`: `format!("{}", s as f32 /
100_000_000.0)` when present, the empty string when absent. -/
def amountField : Option ℕ → String
  | some s => fmtF32 (divE8F32 (u64ToF32 s))
  | none => ""

/-- `InputEval::gui_csv`. -/
def gui_csv (r : InputEval) : Except String String :=
  .ok (netStr r.network ++ ";" ++ amountField r.satoshis ++ ";" ++ r.description)

/-! ## `src/wallet.rs::BdkWallet::pay_invoice` — amount-matching logic

The node call is abstracted at its boundary: the function returns which
`bolt11_payment()` call the source would issue (`send` or
`send_using_amount`), or the error it returns before reaching the node.
`i64` arithmetic (the casts, the subtraction, `abs`, each wrapping in
release mode) is modelled exactly. -/

/-- `as i64` reinterpretation of a `u64`. -/
def u64AsI64 (n : ℕ) : ℤ := if n < 2 ^ 63 then (n : ℤ) else (n : ℤ) - 2 ^ 64

/-- Wrap a mathematical integer to `i64` two's-complement range. -/
def wrapI64 (z : ℤ) : ℤ := (z + 2 ^ 63) % 2 ^ 64 - 2 ^ 63

/-- `i64::abs` with release-mode wrap-around (`i64::MIN.abs()` wraps to
`i64::MIN`). -/
def i64Abs (z : ℤ) : ℤ := wrapI64 |z|

/-- The node call `pay_invoice` decides on. -/
inductive PayAction where
  | sendNoAmount : PayAction
  | sendUsingAmount (msat : ℕ) : PayAction
deriving DecidableEq, Repr

/-- `BdkWallet::pay_invoice`, up to the node boundary.  `invMsat` is
`invoice.amount_milli_satoshis()`, `amount` the field amount in
satoshis. -/
def pay_invoice (invMsat amount : Option ℕ) : Except String PayAction :=
  match invMsat, amount with
  | some _, none => .ok .sendNoAmount
  | some amountInv, some amountField =>
      if 1000000 < i64Abs (wrapI64 (u64AsI64 amountInv - wrapI64 (u64AsI64 amountField * 1000))) then
        .error ("amount of the invoice " ++ toString amountInv ++ " and in the field "
          ++ toString (mul1000U64 amountField) ++ " don't match")
      else .ok .sendNoAmount
  | none, some amount => .ok (.sendUsingAmount (mul1000U64 amount))
  | none, none => .error "No amount to pay the invoice!"

/-! ## Concrete oracle instance

`lib0` pins the oracle fields at the concrete inputs exercised by the
witnesses below, with the values the real libraries produce on them
(taken from the repository's own test-suite where available); everywhere
else the parsers fail, as the real libraries do on strings of a
different format. -/

/-- The valid mainnet P2WPKH address of the repository's tests. -/
def addrBech : String := "bc1qa8dn66xn2yq4fcaee4f0gwkkr6e6em643cm8fa"

/-- A valid mainnet P2TR (taproot, 62-character bech32m) address — the
first BIP-86 test-vector receiving address. -/
def addrTaproot : String :=
  "bc1p5cyxnuxmeuwuvkwfem96lqzszd02n6xdcjrs2za62yw5s0pk2mzqejag5c"

/-- The WIF private key of the repository's tests. -/
def wifStr : String := "KxWvpvpY9C5weJGWpUMQqHt88Xktt7nZDZPHbpJjEuUaDgeMHJuw"

/-- The descriptor of the repository's `test_desc_invalid` (parses, but
fails `sanity_check`). -/
def descInvalidStr : String :=
  "pkh(pkh(xprv9z1Nt86QQeoGXTjrvKgbFT924JeV1qmE46QBNjiAsLP))"

/-- The amountless BOLT11 invoice of the repository's
`test_bolt11_short` (its serialization is itself; no embedded amount;
direct description `"⚡"`). -/
def bolt11Str : String :=
  "lnbc1pjzg3y4sp5t5pqc4w2re6duurq9smwhd78688rwmg2hwxhypxn0vqgu9vgjxnspp5z7p6kn5fpnr8zefvhdw90gascnae5a9s2flrwjp45a6tf53gwrrqdq9u2d2zxqr3jscqpjrzjqvp62xyytkuen9rc8asxue3fuuzultc89ewwnfxch70zf80yl0gpjzxypyqqxhqqqqqqqqqqqqqqqzqq9q9qx3qysgqcnwt6hdzlz3r5k3vqlwcyjrgmyyxrcq7rv304w32q8s6zqe4r7vjvvqxq8rk0g8j9udljtr9dw908ye7608z945gpa3h0avudrqtcpsp7zd4mp"

/-- The parsed form of `bolt11Str`. -/
def inv0 : Bolt11 := ⟨bolt11Str, none, some "⚡"⟩

/-- An LNURL-pay endpoint used by the LNURL witnesses. -/
def payUrl : String := "https://example.com/.well-known/lnurlp/alice"

/-- Concrete oracle instance (see the section comment). -/
def lib0 : Lib where
  addrFromStr := fun s =>
    if s = addrBech ∨ s = addrTaproot then .ok s else .error "base58 error"
  requireNetworkBitcoin := fun a => .ok a
  wifParse := fun s => if s = wifStr then some wifStr else none
  xprvParse := fun _ => none
  electrumParse := fun _ => none
  descParse := fun s =>
    if s = descInvalidStr then some ⟨descInvalidStr, some "Miniscript(Unexpected(\"pkh\"))"⟩
    else none
  bolt11FromStr := fun s =>
    if s = bolt11Str then .ok inv0 else .error "ParseError(Bech32Error(MissingSeparator))"
  lnUrlFromStr := fun _ => .error "invalid bech32"
  lnaddrParse := fun _ => .error "invalid lightning address"
  buildClient := .ok ()
  makeRequest := fun u =>
    if u = payUrl then .ok (.pay ⟨1000, 2000⟩) else .error "transport error"
  getInvoice := fun _ _ _ _ => .ok bolt11Str

/-- The all-uppercase spelling of `bolt11Str` (bech32 admits uniformly
upper-cased strings; the classifier's case-insensitive BOLT11 regex
accepts it unchanged, and parsing yields the same invoice, which
serializes in canonical lowercase — the behaviour the repository's
`test_bolt11_ulrichard` records for an upper-case invoice). -/
def upperBolt11Str : String :=
  "LNBC1PJZG3Y4SP5T5PQC4W2RE6DUURQ9SMWHD78688RWMG2HWXHYPXN0VQGU9VGJXNSPP5Z7P6KN5FPNR8ZEFVHDW90GASCNAE5A9S2FLRWJP45A6TF53GWRRQDQ9U2D2ZXQR3JSCQPJRZJQVP62XYYTKUEN9RC8ASXUE3FUUZULTC89EWWNFXCH70ZF80YL0GPJZXYPYQQXHQQQQQQQQQQQQQQQZQQ9Q9QX3QYSGQCNWT6HDZLZ3R5K3VQLWCYJRGMYYXRCQ7RV304W32Q8S6ZQE4R7VJVVQXQ8RK0G8J9UDLJTR9DW908YE7608Z945GPA3H0AVUDRQTCPSP7ZD4MP"

/-- Variant of `lib0` whose invoice oracle also accepts the
all-uppercase spelling of the test invoice, parsing it to the same
`inv0` (whose serialization is the canonical lowercase form). -/
def lib0u : Lib :=
  { lib0 with
    bolt11FromStr := fun s =>
      if s = bolt11Str ∨ s = upperBolt11Str then .ok inv0
      else .error "ParseError(Bech32Error(MissingSeparator))" }

/-- Decidable equality for `Except` results (needed to settle concrete
runs of the resolver by computation). -/
instance exceptDecEq {ε α : Type} [DecidableEq ε] [DecidableEq α] :
    DecidableEq (Except ε α) := fun x y =>
  match x, y with
  | .ok a, .ok b =>
      if h : a = b then .isTrue (by rw [h]) else .isFalse (by simp [h])
  | .error a, .error b =>
      if h : a = b then .isTrue (by rw [h]) else .isFalse (by simp [h])
  | .ok _, .error _ => .isFalse (by simp)
  | .error _, .ok _ => .isFalse (by simp)

/-- `Repr` for `Except` results (development aid only). -/
instance exceptRepr {ε α : Type} [Repr ε] [Repr α] : Repr (Except ε α) where
  reprPrec x _ :=
    match x with
    | .ok a => Std.Format.text "ok " ++ repr a
    | .error e => Std.Format.text "error " ++ repr e

/-! ## Claims -/

set_option maxRecDepth 4000

/-- C1: `parse_satoshis` maps the empty string to 0; for every non-empty
input it parses the text as a decimal (floating-point) BTC amount and
converts it to satoshis by multiplying by 100,000,000 and truncating to
an integer, so that `parse_satoshis "0.0000001" = 10` and
`parse_satoshis "100" = 10_000_000_000`; and for every non-numeric input
(e.g. `"abc"`) it fails with a `MalformedAmount` error. -/
theorem c1_parse_satoshis_spec :
    parse_satoshis "" = .ok 0
    ∧ parse_satoshis "0.0000001" = .ok 10
    ∧ parse_satoshis "100" = .ok 10000000000
    ∧ parse_satoshis "abc" =
        .error "Failed to parse the satoshis from \"abc\" : invalid float literal"
    ∧ (∀ s : String, s ≠ "" → parseF64 s = none →
        parse_satoshis s =
          .error ("Failed to parse the satoshis from " ++ rustDebugStr s
            ++ " : invalid float literal"))
    ∧ (∀ (s : String) (f : FP), s ≠ "" → parseF64 s = some f →
        parse_satoshis s = .ok (f64AsU64 (mulE8F64 f))) := by
  refine ⟨by decide, by decide, by decide, by decide, ?_, ?_⟩
  · intro s hne hparse
    simp [parse_satoshis, hne, hparse]
  · intro s f hne hparse
    simp [parse_satoshis, hne, hparse]

/-- Witness for C1 at the concrete non-empty input `"2.5"` (`f64` value
`5/2`, times `10^8`, truncated). -/
theorem c1_parse_satoshis_witness : parse_satoshis "2.5" = .ok 250000000 := by
  have h := c1_parse_satoshis_spec.2.2.2.2.2 "2.5" (.finite (mkRat 5 2))
    (by decide) (by decide)
  rw [h]
  decide

/-- C2: for every `bitcoin:` URI recipient, an `amount=` or `label=`
query parameter found in the URI wins over the separately supplied
`amount_text` / `description_text` arguments, and the arguments are used
only when the URI carries no such parameter — covering all four
presence combinations: both parameters, amount only (the amount ignores
`amount_text` while `description_text` is still the description
fallback), label only (the label ignores `description_text` while
`amount_text` is still the amount fallback), and neither; in particular
`resolve("bitcoin:<addr>?label=test&amount=100", "", "")` yields
description `"test"` and satoshis 10,000,000,000, identical to directly
supplying those values via the arguments. -/
theorem c2_uri_precedence :
    (∀ (lib : Lib) (r addr av lv b b1 d d1 : String) (n : ℕ) (s0 s1 : Option ℕ),
      isBtcAddr r.data = false →
      bitcoinUriAddr r.data = some addr →
      lookupProp (findProps r.length r.data) "amount" = some av →
      lookupProp (findProps r.length r.data) "label" = some lv →
      parse_satoshis av = .ok n →
      argSats b = .ok s0 →
      argSats b1 = .ok s1 →
      evaluate lib r b d = some (mainnet lib addr (some n) lv)
      ∧ evaluate lib r b d = evaluate lib r b1 d1)
    ∧ (∀ (lib : Lib) (r addr b d : String) (s0 : Option ℕ),
      isBtcAddr r.data = false →
      bitcoinUriAddr r.data = some addr →
      lookupProp (findProps r.length r.data) "amount" = none →
      lookupProp (findProps r.length r.data) "label" = none →
      argSats b = .ok s0 →
      evaluate lib r b d = some (mainnet lib addr s0 d))
    ∧ (∀ (lib : Lib) (r addr av b b1 d : String) (n : ℕ) (s0 s1 : Option ℕ),
      isBtcAddr r.data = false →
      bitcoinUriAddr r.data = some addr →
      lookupProp (findProps r.length r.data) "amount" = some av →
      lookupProp (findProps r.length r.data) "label" = none →
      parse_satoshis av = .ok n →
      argSats b = .ok s0 →
      argSats b1 = .ok s1 →
      evaluate lib r b d = some (mainnet lib addr (some n) d)
      ∧ evaluate lib r b d = evaluate lib r b1 d)
    ∧ (∀ (lib : Lib) (r addr lv b d d1 : String) (s0 : Option ℕ),
      isBtcAddr r.data = false →
      bitcoinUriAddr r.data = some addr →
      lookupProp (findProps r.length r.data) "amount" = none →
      lookupProp (findProps r.length r.data) "label" = some lv →
      argSats b = .ok s0 →
      evaluate lib r b d = some (mainnet lib addr s0 lv)
      ∧ evaluate lib r b d = evaluate lib r b d1)
    ∧ evaluate lib0 "bitcoin:bc1qa8dn66xn2yq4fcaee4f0gwkkr6e6em643cm8fa?label=test&amount=100" "" ""
        = evaluate lib0 addrBech "100" "test"
    ∧ evaluate lib0 "bitcoin:bc1qa8dn66xn2yq4fcaee4f0gwkkr6e6em643cm8fa?label=test&amount=100" "" ""
        = some (.ok ⟨.Mainnet addrBech, some 10000000000, "test"⟩)
    ∧ evaluate lib0 "bitcoin:bc1qa8dn66xn2yq4fcaee4f0gwkkr6e6em643cm8fa?amount=100" "0.5" ""
        = some (.ok ⟨.Mainnet addrBech, some 10000000000, ""⟩)
    ∧ evaluate lib0 "bitcoin:bc1qa8dn66xn2yq4fcaee4f0gwkkr6e6em643cm8fa?label=test" "0.5" "ignored"
        = some (.ok ⟨.Mainnet addrBech, some 50000000, "test"⟩) := by
  refine ⟨?_, ?_, ?_, ?_, by decide, by decide, by decide, by decide⟩
  · intro lib r addr av lv b b1 d d1 n s0 s1 h1 h2 ha hl hn hb hb1
    constructor
    · simp [evaluate, Except.map, hb, h1, h2, ha, hl, hn]
    · simp [evaluate, Except.map, hb, hb1, h1, h2, ha, hl, hn]
  · intro lib r addr b d s0 h1 h2 ha hl hb
    simp [evaluate, hb, h1, h2, ha, hl]
  · intro lib r addr av b b1 d n s0 s1 h1 h2 ha hl hn hb hb1
    constructor
    · simp [evaluate, Except.map, hb, h1, h2, ha, hl, hn]
    · simp [evaluate, Except.map, hb, hb1, h1, h2, ha, hl, hn]
  · intro lib r addr lv b d d1 s0 h1 h2 ha hl hb
    constructor
    · simp [evaluate, hb, h1, h2, ha, hl]
    · simp [evaluate, hb, h1, h2, ha, hl]

/-- Witness for C2: the URI parameters win over the non-empty, well-formed
arguments `"7"` / `"ignored"`. -/
theorem c2_witness :
    evaluate lib0 "bitcoin:bc1qa8dn66xn2yq4fcaee4f0gwkkr6e6em643cm8fa?label=test&amount=100" "7" "ignored"
      = some (mainnet lib0 addrBech (some 10000000000) "test") :=
  (c2_uri_precedence.1 lib0
    "bitcoin:bc1qa8dn66xn2yq4fcaee4f0gwkkr6e6em643cm8fa?label=test&amount=100"
    addrBech "100" "test" "7" "7" "ignored" "ignored" 10000000000
    (some 700000000) (some 700000000)
    (by decide) (by decide) (by decide) (by decide) (by decide) (by decide) (by decide)).1

/-- C3: in the LNURL-pay flow, a caller-supplied amount whose
millisatoshi value lies outside `[min_sendable, max_sendable]` makes
resolution fail with a hard error naming the offending value and both
bounds, with no silent clamping, and no callback request is issued (the
result is the same error for every possible `get_invoice` callback
behaviour); when the caller supplied no amount, the chosen amount
defaults to `min_sendable` (the callback is invoked with exactly
`min_sendable` millisatoshis). -/
theorem c3_lnurl_pay_bounds :
    (∀ (lib : Lib) (g : PayResp → ℕ → Option Unit → Option String → Except String String)
       (url d : String) (s : ℕ) (pay : PayResp),
      lib.buildClient = .ok () →
      lib.makeRequest url = .ok (.pay pay) →
      (mul1000U64 s < pay.minSendable ∨ pay.maxSendable < mul1000U64 s) →
      ln_url { lib with getInvoice := g } url (some s) d =
        .error ("payment " ++ toString (mul1000U64 s) ++ " is not between "
          ++ toString pay.minSendable ++ " and " ++ toString pay.maxSendable))
    ∧ (∀ (lib : Lib) (url d : String) (pay : PayResp),
      lib.buildClient = .ok () →
      lib.makeRequest url = .ok (.pay pay) →
      ln_url lib url none d =
        (match lib.getInvoice pay pay.minSendable none (some d) with
         | .error e => .error e
         | .ok invoice => lightning lib invoice (some (pay.minSendable / 1000)) d)) := by
  constructor
  · intro lib g url d s pay hc hreq hout
    simp [ln_url, hc, hreq, hout]
  · intro lib url d pay hc hreq
    simp [ln_url, hc, hreq]

/-- Witness for C3: 5 satoshis (5000 msat) against bounds
`[1000, 2000]`. -/
theorem c3_witness :
    ln_url lib0 payUrl (some 5) "" = .error "payment 5000 is not between 1000 and 2000" := by
  have h := c3_lnurl_pay_bounds.1 lib0 lib0.getInvoice payUrl "" 5 ⟨1000, 2000⟩
    (by decide) (by decide) (by decide)
  exact h.trans (by decide)

/-- Counterexample for C4: a valid mainnet address (the first BIP-86
taproot receiving address, accepted by the address library itself, as
the first conjunct records) on which `resolve` nevertheless fails with
`Unknown input format`, because the classifier's regex admits only 25–39
characters after the `bc1`/`1`/`3` prefix while this bech32m address has
59. -/
theorem c4_counterexample :
    lib0.addrFromStr addrTaproot = .ok addrTaproot
    ∧ evaluate lib0 addrTaproot "" "" = some (.error "Unknown input format") := by
  constructor
  · decide
  · decide

/-- C4 (amended): for all valid mainnet addresses `A` that match the
classifier's address pattern (`bc1`, `1` or `3` followed by 25–39
base58-style characters — covering P2PKH, P2SH and P2WPKH, but not
62-character bech32 forms such as P2WSH or P2TR),
`resolve(A, "", "")` succeeds and yields the `OnChain` variant carrying
the exact address echoed back unchanged. -/
theorem c4_amended_addr_echo (lib : Lib) (A : String)
    (h1 : isBtcAddr A.data = true)
    (h2 : lib.addrFromStr A = .ok A)
    (h3 : lib.requireNetworkBitcoin A = .ok A) :
    evaluate lib A "" "" = some (.ok ⟨.Mainnet A, none, ""⟩) := by
  simp [evaluate, argSats, h1, mainnet, h2, h3]

/-- Witness for the amended C4 at the repository's own P2WPKH test
address. -/
theorem c4_amended_witness :
    evaluate lib0 addrBech "" "" = some (.ok ⟨.Mainnet addrBech, none, ""⟩) :=
  c4_amended_addr_echo lib0 addrBech (by decide) (by decide) (by decide)

/-- Counterexample for C5, in two parts.  First, feeding the
`lightning:`-prefixed form of the repository's own test invoice through
`resolve` succeeds, but the re-serialized invoice is the string with the
prefix stripped, not the original input byte-for-byte.  Second, the
prefix-free all-uppercase spelling of the same invoice is also accepted
(the BOLT11 regex is case-insensitive and bech32 decodes uniform
uppercase), yet the stored invoice re-serializes to the lowercase
canonical form, again differing from the input. -/
theorem c5_counterexample :
    (evaluate lib0 ("lightning:" ++ bolt11Str) "" "" =
        some (.ok ⟨.Lightning inv0, none, "⚡"⟩)
      ∧ inv0.serialize ≠ "lightning:" ++ bolt11Str)
    ∧ (evaluate lib0u upperBolt11Str "" "" =
        some (.ok ⟨.Lightning inv0, none, "⚡"⟩)
      ∧ inv0.serialize ≠ upperBolt11Str) := by
  refine ⟨⟨by decide, by decide⟩, by decide, by decide⟩

/-- C5 (amended): for every BOLT11 invoice string accepted by `resolve`
that carries no `lightning:`/`LIGHTNING:` scheme occurrence (so the
classifier's stripping leaves it unchanged — the first counterexample
part shows prefixed inputs fail the round-trip) and that the invoice
library re-serializes to itself, i.e. the canonical lowercase spelling
(the second counterexample part shows uppercase inputs fail it), the
invoice carried by the returned `LightningInvoice` target re-serializes
to the original input string byte-for-byte. -/
theorem c5_amended_roundtrip (lib : Lib) (s b d : String) (inv : Bolt11) (s0 : Option ℕ)
    (hb : argSats b = .ok s0)
    (h1 : isBtcAddr s.data = false)
    (h2 : bitcoinUriAddr s.data = none)
    (h3 : lib.wifParse s = none)
    (h4 : lib.xprvParse s = none)
    (h5 : lib.electrumParse s = none)
    (h6 : lib.descParse s = none)
    (hbolt : isBolt11 s.data = true)
    (hstrip : stripLn s = s)
    (hparse : lib.bolt11FromStr s = .ok inv)
    (hser : inv.serialize = s) :
    evaluate lib s b d =
      some (.ok ⟨.Lightning inv,
        (match inv.amountMsat with
         | some msat => some (msat / 1000)
         | none => s0),
        (match inv.directDesc with
         | some desc => desc
         | none => d)⟩)
    ∧ inv.serialize = s := by
  refine ⟨?_, hser⟩
  simp only [evaluate, hb, h1, h2, h3, h4, h5, h6, hbolt, hstrip, hparse, lightning]
  cases inv.amountMsat <;> simp

/-- Witness for the amended C5 at the repository's own (prefix-free,
lowercase) test invoice. -/
theorem c5_witness :
    evaluate lib0 bolt11Str "" "x" = some (.ok ⟨.Lightning inv0, none, "⚡"⟩) := by
  have h := (c5_amended_roundtrip lib0 bolt11Str "" "x" inv0 none
    (by decide) (by decide) (by decide) (by decide) (by decide) (by decide) (by decide)
    (by decide) (by decide) (by decide) (by decide)).1
  exact h.trans (by decide)

/-- C6: an input that parses as an output descriptor but fails the
semantic sanity check makes `resolve` fail with the descriptor
sanity-check error, rather than falling through to later classification
rules or reporting `Unknown input format`. -/
theorem c6_descriptor_sanity (lib : Lib) (r b d e : String) (dsc : DescT) (s0 : Option ℕ)
    (hb : argSats b = .ok s0)
    (h1 : isBtcAddr r.data = false)
    (h2 : bitcoinUriAddr r.data = none)
    (h3 : lib.wifParse r = none)
    (h4 : lib.xprvParse r = none)
    (h5 : lib.electrumParse r = none)
    (h6 : lib.descParse r = some dsc)
    (h7 : dsc.sanityErr = some e) :
    evaluate lib r b d = some (.error ("Descriptor failed sanity check: " ++ e)) := by
  simp [evaluate, hb, h1, h2, h3, h4, h5, h6, h7]

/-- Witness for C6 at the repository's own `pkh(pkh(...))` test
descriptor. -/
theorem c6_witness :
    evaluate lib0 descInvalidStr "" "" =
      some (.error "Descriptor failed sanity check: Miniscript(Unexpected(\"pkh\"))") := by
  have h := c6_descriptor_sanity lib0 descInvalidStr "" ""
    "Miniscript(Unexpected(\"pkh\"))" ⟨descInvalidStr, some "Miniscript(Unexpected(\"pkh\"))"⟩
    none (by decide) (by decide) (by decide) (by decide) (by decide) (by decide)
    (by decide) (by decide)
  exact h.trans (by decide)

/-- C7: when paying an invoice that embeds an amount while a field
amount is also supplied, the payment is rejected exactly when the
absolute difference between the invoice's millisatoshi amount and the
field amount times 1000 exceeds the fixed absolute threshold of
1,000,000 millisatoshis, regardless of payment size (no relative
tolerance).  The bounds `ai < 2^63` and `af·1000 < 2^63` keep the
source's `i64` casts out of wrap-around. -/
theorem c7_fixed_tolerance (ai af : ℕ) (h1 : ai < 2 ^ 63) (h2 : af * 1000 < 2 ^ 63) :
    (pay_invoice (some ai) (some af)
        = .error ("amount of the invoice " ++ toString ai ++ " and in the field "
            ++ toString (af * 1000) ++ " don't match")
      ↔ 1000000 < ((ai : ℤ) - (af : ℤ) * 1000).natAbs)
    ∧ (((ai : ℤ) - (af : ℤ) * 1000).natAbs ≤ 1000000 →
        pay_invoice (some ai) (some af) = .ok .sendNoAmount) := by
  have haf : af < 2 ^ 63 := by omega
  have e0 : mul1000U64 af = af * 1000 := by unfold mul1000U64; omega
  have e1 : u64AsI64 ai = (ai : ℤ) := by
    simp only [u64AsI64]
    split
    · rfl
    · omega
  have e2 : u64AsI64 af = (af : ℤ) := by
    simp only [u64AsI64]
    split
    · rfl
    · omega
  have e3 : wrapI64 ((af : ℤ) * 1000) = (af : ℤ) * 1000 := by unfold wrapI64; omega
  have e4 : wrapI64 ((ai : ℤ) - (af : ℤ) * 1000) = (ai : ℤ) - (af : ℤ) * 1000 := by
    unfold wrapI64; omega
  have e5 : i64Abs ((ai : ℤ) - (af : ℤ) * 1000) = (((ai : ℤ) - (af : ℤ) * 1000).natAbs : ℤ) := by
    unfold i64Abs wrapI64
    rw [Int.abs_eq_natAbs]
    omega
  constructor
  · simp only [pay_invoice, e0, e1, e2, e3, e4, e5]
    by_cases hc : (1000000 : ℤ) < (((ai : ℤ) - (af : ℤ) * 1000).natAbs : ℤ)
    · rw [if_pos hc]
      constructor
      · intro _
        omega
      · intro _
        rfl
    · rw [if_neg hc]
      constructor
      · intro h
        simp at h
      · intro hgt
        exfalso
        omega
  · intro hle
    simp only [pay_invoice, e0, e1, e2, e3, e4, e5]
    rw [if_neg (by omega : ¬ (1000000 : ℤ) < (((ai : ℤ) - (af : ℤ) * 1000).natAbs : ℤ))]

/-- Witness for C7: a difference of exactly 1,000,000 msat (5,000,000
vs 4,000 · 1000) is accepted, the threshold being strict. -/
theorem c7_witness :
    pay_invoice (some 5000000) (some 4000) = .ok .sendNoAmount :=
  (c7_fixed_tolerance 5000000 4000 (by decide) (by decide)).2 (by decide)

/-- C8: for every triple of caller-supplied strings, `resolve` returns a
`Result` (`Ok` or a descriptive error) and never panics — the two
`unwrap()` calls on the URI regex captures, modelled as the `none`
result, are unreachable. -/
theorem c8_no_panic (lib : Lib) (r b d : String) :
    (evaluate lib r b d).isSome = true := by
  unfold evaluate
  repeat' split
  all_goals try rfl
  · simp_all
  · cases hA : lookupProp (findProps r.length r.data) "amount" with
    | none => simp [hA]
    | some sats =>
        cases hP : parse_satoshis sats with
        | error e => simp [hA, hP, Except.map]
        | ok n => simp [hA, hP, Except.map]
  · cases hB : lib.bolt11FromStr (stripLn r) with
    | error e => simp [hB]
    | ok inv => simp [hB]
  · cases hU : lib.lnUrlFromStr (stripLn r) with
    | error e => simp [hU]
    | ok url => simp [hU]

/-- C9: `display_csv` produces
`"<target-string>;<amount-in-BTC-decimal-or-empty>;<description>"`,
where the amount field is the satoshi amount divided by 100,000,000
(through `f32`, as the source computes it) formatted as a BTC decimal,
and is the empty string when the amount is absent; the concrete
conjuncts reproduce the repository's own expected strings. -/
theorem c9_gui_csv :
    (∀ r : InputEval, gui_csv r =
      .ok (netStr r.network ++ ";" ++ amountField r.satoshis ++ ";" ++ r.description))
    ∧ (∀ s : ℕ, amountField (some s) = fmtF32 (divE8F32 (u64ToF32 s)))
    ∧ amountField none = ""
    ∧ amountField (some 10) = "0.0000001"
    ∧ amountField (some 100000000) = "1"
    ∧ amountField (some 10000000000) = "100"
    ∧ amountField (some 351877) = "0.00351877" :=
  ⟨fun _ => rfl, fun _ => rfl, rfl, by decide, by decide, by decide, by decide⟩

/-- C10: every recipient classified as sweep-key material (WIF private
key, extended private key — plain or Electrum-encoded — or output
descriptor passing its sanity check) resolves with `satoshis = none` and
the fixed sweep description, ignoring both the caller-supplied
`amount_text` (even when non-empty and well-formed) and the
caller-supplied `description_text`. -/
theorem c10_sweep_ignores_args :
    (∀ (lib : Lib) (r b d pk : String) (s0 : Option ℕ),
      argSats b = .ok s0 →
      isBtcAddr r.data = false →
      bitcoinUriAddr r.data = none →
      lib.wifParse r = some pk →
      evaluate lib r b d = some (.ok ⟨.PrivKey (.Pk pk), none, "sweep private key"⟩))
    ∧ (∀ (lib : Lib) (r b d xp : String) (s0 : Option ℕ),
      argSats b = .ok s0 →
      isBtcAddr r.data = false →
      bitcoinUriAddr r.data = none →
      lib.wifParse r = none →
      lib.xprvParse r = some xp →
      evaluate lib r b d = some (.ok ⟨.PrivKey (.Epk xp), none, "sweep private keys"⟩))
    ∧ (∀ (lib : Lib) (r b d xp : String) (s0 : Option ℕ),
      argSats b = .ok s0 →
      isBtcAddr r.data = false →
      bitcoinUriAddr r.data = none →
      lib.wifParse r = none →
      lib.xprvParse r = none →
      lib.electrumParse r = some xp →
      evaluate lib r b d = some (.ok ⟨.PrivKey (.Epk xp), none, "sweep private keys"⟩))
    ∧ (∀ (lib : Lib) (r b d : String) (dsc : DescT) (s0 : Option ℕ),
      argSats b = .ok s0 →
      isBtcAddr r.data = false →
      bitcoinUriAddr r.data = none →
      lib.wifParse r = none →
      lib.xprvParse r = none →
      lib.electrumParse r = none →
      lib.descParse r = some dsc →
      dsc.sanityErr = none →
      evaluate lib r b d = some (.ok ⟨.PrivKey (.Desc dsc), none, "sweep private keys"⟩)) := by
  refine ⟨?_, ?_, ?_, ?_⟩
  · intro lib r b d pk s0 hb h1 h2 h3
    simp [evaluate, hb, h1, h2, h3]
  · intro lib r b d xp s0 hb h1 h2 h3 h4
    simp [evaluate, hb, h1, h2, h3, h4]
  · intro lib r b d xp s0 hb h1 h2 h3 h4 h5
    simp [evaluate, hb, h1, h2, h3, h4, h5]
  · intro lib r b d dsc s0 hb h1 h2 h3 h4 h5 h6 h7
    simp [evaluate, hb, h1, h2, h3, h4, h5, h6, h7]

/-- Witness for C10 at the repository's WIF test key, with a non-empty
well-formed amount (`"1"` BTC) and a non-empty description, both
ignored. -/
theorem c10_witness :
    evaluate lib0 wifStr "1" "hello" =
      some (.ok ⟨.PrivKey (.Pk wifStr), none, "sweep private key"⟩) :=
  c10_sweep_ignores_args.1 lib0 wifStr "1" "hello" wifStr (some 100000000)
    (by decide) (by decide) (by decide) (by decide)
